import Mathlib

/-!
# Verification of the OmniLogic UDP protocol client (omnilogic.py)

A shallow embedding of the protocol core of `src/omnilogic.py`:

* the frame codec `OmniLogicRequest.toBytes` / `OmniLogicRequest.fromBytes`
  (24-byte big-endian header `!LQ4sLBBBB` followed by the payload);
* the transport session operations `_sendRequest`, `_sendAck`, `_receiveFile`
  and `_waitForData`.

Bytes are modelled as `List Nat` (each entry a byte value); the wall clock of
`_waitForData` is modelled in milliseconds.  External library calls that the
Python code makes (`xml.etree` parsing of the `MsgBlockCount` parameter,
`zlib.decompress`, the serialized XML text produced by `ET.tostring`) are not
code of this repository; they enter the embedding as explicit function or
value parameters of the definitions that use them, so every theorem is
quantified over their behaviour.
-/

namespace OmniLogic

/-- Message-type constants from the top of `omnilogic.py`. -/
def MSP_LEADMESSAGE_MESSAGE_TYPE : Nat := 1998

def MSP_TELEMETRYUPDATE_MESSAGE_TYPE : Nat := 1004

def XMLACK_MESSAGE_TYPE : Nat := 0

/-- Big-endian bytes of a 32-bit value, as packed by `struct.pack("!L", n)`. -/
def u32be (n : Nat) : List Nat :=
  [n / 2 ^ 24 % 256, n / 2 ^ 16 % 256, n / 2 ^ 8 % 256, n % 256]

/-- Big-endian bytes of a 64-bit value, as packed by `struct.pack("!Q", n)`. -/
def u64be (n : Nat) : List Nat :=
  [n / 2 ^ 56 % 256, n / 2 ^ 48 % 256, n / 2 ^ 40 % 256, n / 2 ^ 32 % 256,
   n / 2 ^ 24 % 256, n / 2 ^ 16 % 256, n / 2 ^ 8 % 256, n % 256]

/-- Big-endian value of a byte list (inverse direction of `u32be`/`u64be`,
as computed by `struct.unpack`). -/
def beVal (bs : List Nat) : Nat :=
  bs.foldl (fun acc b => acc * 256 + b) 0

/-- The fixed protocol version string `"1.19"` of `OmniLogicRequest.__init__`,
as its four ASCII bytes. -/
def versionBytes : List Nat := [49, 46, 49, 57]

/-- The `OmniLogicRequest` class: the outbound request object of `omnilogic.py`.
`extraData` holds the UTF-8 bytes of the Python `extraData` string
(`bytes(extraData, "utf-8")` in `__init__`); the `version` attribute is the
constant `"1.19"` and is kept as the global `versionBytes`. -/
structure OmniLogicRequest where
  msgId : Nat
  msgType : Nat
  clientType : Nat
  extraData : List Nat
  deriving Repr, DecidableEq

/-- Model of `OmniLogicRequest.toBytes`: packs the 24-byte header
`struct.pack("!LQ4sLBBBB", msgId, timestamp, version, msgType, clientType,
0, 0, 0)` and appends `extraData`.  The Python code reads the timestamp from
the wall clock (`int(time.time_ns()/(10**9))`); here it is the explicit
argument `timestamp`. -/
def OmniLogicRequest.toBytes (r : OmniLogicRequest) (timestamp : Nat) : List Nat :=
  u32be r.msgId ++ u64be timestamp ++ versionBytes ++ u32be r.msgType ++
    [r.clientType % 256, 0, 0, 0] ++ r.extraData

/-- The tuple returned by `OmniLogicRequest.fromBytes`:
`(msgId, tstamp, vers, msgType, clientType, res1, compressed, res3, rdata)`. -/
structure DecodedFrame where
  msgId : Nat
  tstamp : Nat
  vers : List Nat
  msgType : Nat
  clientType : Nat
  res1 : Nat
  compressed : Nat
  res3 : Nat
  rdata : List Nat
  deriving Repr, DecidableEq

/-- Model of `OmniLogicRequest.fromBytes`: slices `data[0:24]` as the header and
`data[24:]` as the payload, and unpacks the header with
`struct.unpack("!LQ4sLBBBB", header)`.  When fewer than 24 bytes are supplied
`struct.unpack` raises (`struct.error`, the spec's `MalformedFrame`); that
failure is `none` here. -/
def OmniLogicRequest.fromBytes (data : List Nat) : Option DecodedFrame :=
  if data.length < 24 then
    none
  else
    some
      { msgId := beVal (data.take 4)
        tstamp := beVal ((data.drop 4).take 8)
        vers := (data.drop 12).take 4
        msgType := beVal ((data.drop 16).take 4)
        clientType := data.getD 20 0
        res1 := data.getD 21 0
        compressed := data.getD 22 0
        res3 := data.getD 23 0
        rdata := data.drop 24 }

/-- Model of the request built by `_sendRequest` (lines 303-317): the message
id is drawn by `random.randrange(2**32)` and is the explicit argument `msgId`;
`clientType = 0 if extraData != "" else 1`; a single null byte is appended to
a non-empty body (`extraData += "\x00"`) and an empty body is left unchanged.
The XML body string is represented by its UTF-8 bytes (UTF-8 encoding of a
string is empty exactly when the string is, so the Python emptiness test
becomes `extraData = []`).  `_sendRequest` then transmits
`(sendRequestFrame ...).toBytes` and calls `_waitForData sock msgId`; that
wait is modelled separately by `waitForData`/`waitFrames`. -/
def sendRequestFrame (msgId msgType : Nat) (extraData : List Nat) : OmniLogicRequest :=
  { msgId := msgId
    msgType := msgType
    clientType := if extraData = [] then 1 else 0
    extraData := if extraData = [] then extraData else extraData ++ [0] }

/-- Model of `_sendAck` (lines 365-374): builds
`OmniLogicRequest(msgId, XMLACK_MESSAGE_TYPE, reqBody, 0)` where `reqBody` is
the serialized `<Request><Name>Ack</Name></Request>` XML produced by
`ET.tostring` (Python stdlib); that serialized text is the parameter
`ackBody`, the same value for every ack. -/
def sendAck (ackBody : List Nat) (msgId : Nat) : OmniLogicRequest :=
  { msgId := msgId
    msgType := XMLACK_MESSAGE_TYPE
    clientType := 0
    extraData := ackBody }

/-- Model of `_receiveFile` (lines 322-363), which consumes inbound frames
from the socket; the frames the socket would deliver, already decoded by
`fromBytes` (that is what `_recv` returns), are the list `frames`, and every
frame the session sends back (`_sendAck`) is collected in the returned list,
in send order.  The two stdlib calls are parameters:

* `parseBlockCount` models `int(ET.fromstring(data[:-1])
  .findall(".//*[@name='MsgBlockCount']")[0].text)` — the block count
  extracted from the lead frame's XML payload after its trailing null byte is
  stripped (`List.dropLast`);
* `decompress` models `zlib.decompress`, `none` being the `zlib.error` the
  spec calls `DecompressionError` (note `bytes.fromhex(retval.hex())` on
  line 359 is the identity on bytes).

The result is the byte buffer `retval` as it stands at line 362 together with
the acks sent; `none` models an exception escaping `_receiveFile` (no frame
to receive, fewer frames than the announced block count — a
`socket.timeout` from `_recv` — or a failed decompression).  The final
`retval.decode('utf-8')` (Python stdlib, the spec's `EncodingError`) is
outside the model.  The block-collection loop (lines 345-349) accumulates
`retval += data[8:]` and acknowledges each received frame with that frame's
own id; it inspects nothing else about the frame. -/
def receiveFile (parseBlockCount : List Nat → Nat)
    (decompress : List Nat → Option (List Nat)) (ackBody : List Nat)
    (frames : List DecodedFrame) : Option (List Nat × List OmniLogicRequest) :=
  match frames with
  | [] => none
  | f :: rest =>
    let ack0 := sendAck ackBody f.msgId
    let msgCompressed :=
      f.compressed = 1 ∨ f.msgType = MSP_TELEMETRYUPDATE_MESSAGE_TYPE
    if f.msgType = MSP_LEADMESSAGE_MESSAGE_TYPE then
      let blockCount := parseBlockCount f.rdata.dropLast
      if blockCount ≤ rest.length then
        let blocks := rest.take blockCount
        let retval := blocks.foldl (fun acc b => acc ++ b.rdata.drop 8) []
        let acks := ack0 :: blocks.map (fun b => sendAck ackBody b.msgId)
        if msgCompressed then (decompress retval).map (fun d => (d, acks))
        else some (retval, acks)
      else none
    else if msgCompressed then (decompress f.rdata).map (fun d => (d, [ack0]))
    else some (f.rdata.drop 8, [ack0])

/-- One attempt of the receive loop of `_waitForData`: either a datagram
arrives and `_recv` returns a decoded frame, or the 0.5-second socket timeout
set by `sock.settimeout(0.5)` elapses and `socket.timeout` is raised.  `dur`
is how long the attempt took on the wall clock, in milliseconds (at most 500,
since `recvfrom` returns as soon as a datagram arrives and gives up after the
0.5 s timeout). -/
inductive RecvEvent where
  | frame (f : DecodedFrame) (dur : Nat)
  | sockTimeout (dur : Nat)
  deriving Repr, DecidableEq

/-- Outcome of `_waitForData`: the matching frame was returned, or the loop
condition `time.time() < start + self.responseTimeout` failed and the bare
`raise Exception()` on line 392 fired (the spec's `ResponseTimeout`).  In
both cases `elapsed` is the wall-clock time, in milliseconds since `start`,
at which the function exited.  `starved` marks a run that consumed every
supplied event while the loop would still continue — not a behaviour of the
Python code, whose blocking `recvfrom` always produces another event. -/
inductive WaitResult where
  | matched (f : DecodedFrame) (elapsed : Nat)
  | timedOutRaise (elapsed : Nat)
  | starved (elapsed : Nat)
  deriving Repr, DecidableEq

/-- Model of `_waitForData` (lines 381-392) with the wall clock explicit, in
milliseconds.  `now` is the time elapsed since `start`; the loop guard is
`respMsgId != msgId and time.time() < start + self.responseTimeout`, and its
first conjunct is always true when the guard is evaluated (a matching frame
returns from inside the body), so the guard reduces to `now < timeoutMs`.
Each iteration performs one receive attempt (the next `RecvEvent`): a frame
whose id equals `reqId` is returned immediately; a frame with any other id is
dropped and the loop re-enters; `socket.timeout` is caught by the
`try/except: pass` and the loop re-enters. -/
def waitForData (reqId timeoutMs : Nat) : Nat → List RecvEvent → WaitResult
  | now, events =>
    if now < timeoutMs then
      match events with
      | [] => .starved now
      | .frame f d :: rest =>
        if f.msgId = reqId then .matched f (now + d)
        else waitForData reqId timeoutMs (now + d) rest
      | .sockTimeout d :: rest => waitForData reqId timeoutMs (now + d) rest
    else .timedOutRaise now

/-- The id-matching skeleton of `_waitForData` with the clock abstracted
away (used to compose a whole exchange): scan the arriving frames and return
the first one whose id equals `reqId`, together with the frames still queued
behind it; `none` models the timeout path. -/
def waitFrames (reqId : Nat) : List DecodedFrame → Option (DecodedFrame × List DecodedFrame)
  | [] => none
  | f :: rest => if f.msgId = reqId then some (f, rest) else waitFrames reqId rest

/-- One whole exchange as driven by the public calls (`getTelemetry`,
`getConfig`, ...): `_sendRequest` sends the request with the fresh id `reqId`
and waits (`_waitForData sock reqId`) for the controller's ack frame, whose
return value it discards; then `_receiveFile` consumes the subsequent frames
and produces the response handed to the caller.  `frames` is the stream of
inbound frames in arrival order. -/
def callExchange (parseBlockCount : List Nat → Nat)
    (decompress : List Nat → Option (List Nat)) (ackBody : List Nat)
    (reqId : Nat) (frames : List DecodedFrame) :
    Option (List Nat × List OmniLogicRequest) :=
  match waitFrames reqId frames with
  | none => none
  | some (_, rest) => receiveFile parseBlockCount decompress ackBody rest

/-- Wall-clock duration of one receive attempt. -/
def RecvEvent.dur : RecvEvent → Nat
  | .frame _ d => d
  | .sockTimeout d => d

end OmniLogic

namespace OmniLogic

/-- Unpacking inverts `u32be` on 32-bit values. -/
theorem beVal_u32be (n : Nat) (h : n < 2 ^ 32) : beVal (u32be n) = n := by
  simp only [u32be, beVal, List.foldl]
  omega

/-- Unpacking inverts `u64be` on 64-bit values. -/
theorem beVal_u64be (n : Nat) (h : n < 2 ^ 64) : beVal (u64be n) = n := by
  simp only [u64be, beVal, List.foldl]
  omega

/-- The packed header of `toBytes` is exactly 24 bytes long. -/
theorem toBytes_length (r : OmniLogicRequest) (timestamp : Nat) :
    (r.toBytes timestamp).length = 24 + r.extraData.length := by
  simp [OmniLogicRequest.toBytes, u32be, u64be, versionBytes]
  omega

/-- C1. Round-trip: for every `OmniLogicRequest` with in-range fields
(32-bit `msgId`, 64-bit `timestamp`, 32-bit `msgType`, 8-bit `clientType`,
arbitrary payload bytes), decoding the bytes produced by `toBytes` succeeds
and yields every field back unchanged — message id, timestamp, the 4-byte
version, message type, client type, the three reserved/flag bytes as packed
(0), and the payload verbatim — with the header occupying exactly the first
24 bytes in big-endian order (`(r.toBytes t).drop 24 = r.extraData`). -/
theorem fromBytes_toBytes (r : OmniLogicRequest) (timestamp : Nat)
    (hId : r.msgId < 2 ^ 32) (hTs : timestamp < 2 ^ 64)
    (hTy : r.msgType < 2 ^ 32) (hCl : r.clientType < 256) :
    OmniLogicRequest.fromBytes (r.toBytes timestamp) =
      some
        { msgId := r.msgId, tstamp := timestamp, vers := versionBytes,
          msgType := r.msgType, clientType := r.clientType,
          res1 := 0, compressed := 0, res3 := 0, rdata := r.extraData } ∧
      (r.toBytes timestamp).take 24 =
        u32be r.msgId ++ u64be timestamp ++ versionBytes ++ u32be r.msgType ++
          [r.clientType, 0, 0, 0] ∧
      (r.toBytes timestamp).drop 24 = r.extraData := by
  have hcl' : r.clientType % 256 = r.clientType := Nat.mod_eq_of_lt hCl
  refine ⟨?_, ?_, ?_⟩
  · simp only [OmniLogicRequest.fromBytes, OmniLogicRequest.toBytes, u32be, u64be,
      versionBytes, List.cons_append, List.nil_append, List.length_cons,
      List.length_append, List.take, List.drop, List.getD, List.get?, hcl']
    rw [if_neg (by omega)]
    refine congrArg some ?_
    refine DecodedFrame.mk.injEq .. ▸ ⟨?_, ?_, rfl, ?_, rfl, rfl, rfl, rfl, rfl⟩
    · simpa only [u32be, beVal, List.foldl] using beVal_u32be r.msgId hId
    · simpa only [u64be, beVal, List.foldl] using beVal_u64be timestamp hTs
    · simpa only [u32be, beVal, List.foldl] using beVal_u32be r.msgType hTy
  · simp [OmniLogicRequest.toBytes, u32be, u64be, versionBytes, hcl']
  · simp [OmniLogicRequest.toBytes, u32be, u64be, versionBytes]

/-- Witness for `fromBytes_toBytes` at a concrete frame. -/
theorem fromBytes_toBytes_witness :
    OmniLogicRequest.fromBytes
        (OmniLogicRequest.toBytes ⟨3000000000, 1998, 1, [7, 8, 9]⟩ 1700000000) =
      some
        { msgId := 3000000000, tstamp := 1700000000, vers := versionBytes,
          msgType := 1998, clientType := 1,
          res1 := 0, compressed := 0, res3 := 0, rdata := [7, 8, 9] } := by
  exact (fromBytes_toBytes ⟨3000000000, 1998, 1, [7, 8, 9]⟩ 1700000000
    (by decide) (by norm_num) (by decide) (by decide)).1

/-- C6. Decoding fails (raises, modelled as `none`) exactly on inputs
shorter than 24 bytes; on any input of at least 24 bytes it succeeds and
splits header and payload at byte 24 (`rdata = data.drop 24`). -/
theorem fromBytes_short_iff (data : List Nat) :
    (OmniLogicRequest.fromBytes data = none ↔ data.length < 24) ∧
      (∀ f, OmniLogicRequest.fromBytes data = some f → f.rdata = data.drop 24) := by
  constructor
  · constructor
    · intro h
      by_contra hlen
      simp only [OmniLogicRequest.fromBytes, if_neg hlen] at h
      exact Option.noConfusion h
    · intro h
      simp [OmniLogicRequest.fromBytes, h]
  · intro f hf
    simp only [OmniLogicRequest.fromBytes] at hf
    by_cases hlen : data.length < 24
    · simp [hlen] at hf
    · simp only [if_neg hlen, Option.some.injEq] at hf
      exact hf ▸ rfl

end OmniLogic

namespace OmniLogic

/-- C7. Requests built by `_sendRequest` carry `clientType = 0` and a payload
with exactly one appended null byte when the XML body is non-empty, and
`clientType = 1` with an unmodified (empty) payload when the body is empty. -/
theorem sendRequestFrame_clientType_null (msgId msgType : Nat) (extraData : List Nat) :
    (extraData ≠ [] →
      (sendRequestFrame msgId msgType extraData).clientType = 0 ∧
        (sendRequestFrame msgId msgType extraData).extraData = extraData ++ [0]) ∧
    (extraData = [] →
      (sendRequestFrame msgId msgType extraData).clientType = 1 ∧
        (sendRequestFrame msgId msgType extraData).extraData = extraData) := by
  constructor <;> intro h <;> simp [sendRequestFrame, h]

/-- Witness for `sendRequestFrame_clientType_null` on a one-byte body and on
the empty body. -/
theorem sendRequestFrame_clientType_null_witness :
    ((sendRequestFrame 5 300 [60]).clientType = 0 ∧
      (sendRequestFrame 5 300 [60]).extraData = [60, 0]) ∧
    ((sendRequestFrame 6 31 []).clientType = 1 ∧
      (sendRequestFrame 6 31 []).extraData = []) :=
  ⟨(sendRequestFrame_clientType_null 5 300 [60]).1 (by decide),
   (sendRequestFrame_clientType_null 6 31 []).2 rfl⟩

/-- C3. The wait loop `_waitForData` returns (`matched`) only on a frame whose
id equals the requested id; a frame with a non-matching id received before the
deadline is silently discarded and the loop keeps waiting on the remaining
traffic (and a matching frame received before the deadline is returned at
once). -/
theorem waitForData_match_only (reqId timeoutMs : Nat) :
    (∀ events now f e,
        waitForData reqId timeoutMs now events = .matched f e → f.msgId = reqId) ∧
    (∀ now d f rest, now < timeoutMs → f.msgId ≠ reqId →
        waitForData reqId timeoutMs now (.frame f d :: rest) =
          waitForData reqId timeoutMs (now + d) rest) ∧
    (∀ now d f rest, now < timeoutMs → f.msgId = reqId →
        waitForData reqId timeoutMs now (.frame f d :: rest) =
          .matched f (now + d)) := by
  refine ⟨?_, ?_, ?_⟩
  · intro events
    induction events with
    | nil =>
      intro now f e h
      simp only [waitForData] at h
      split at h <;> exact WaitResult.noConfusion h
    | cons ev rest ih =>
      intro now f e h
      by_cases hnow : now < timeoutMs
      · cases ev with
        | frame g d =>
          simp only [waitForData, if_pos hnow] at h
          by_cases hg : g.msgId = reqId
          · rw [if_pos hg] at h
            cases h
            exact hg
          · rw [if_neg hg] at h
            exact ih (now + d) f e h
        | sockTimeout d =>
          simp only [waitForData, if_pos hnow] at h
          exact ih (now + d) f e h
      · cases ev <;> simp only [waitForData, if_neg hnow] at h <;>
          exact WaitResult.noConfusion h
  · intro now d f rest hnow hne
    simp only [waitForData, if_pos hnow, if_neg hne]
  · intro now d f rest hnow heq
    simp only [waitForData, if_pos hnow, if_pos heq]

/-- Witness for `waitForData_match_only`: with requested id 5 and timeout
1000 ms, a stream opening with a stray frame (id 9) is handled by skipping it,
and the matched result on the full stream indeed carries id 5. -/
theorem waitForData_match_only_witness :
    DecodedFrame.msgId ⟨5, 0, [], 1002, 1, 0, 0, 0, []⟩ = 5 ∧
    waitForData 5 1000 0
        [.frame ⟨9, 0, [], 1002, 1, 0, 0, 0, []⟩ 100,
         .frame ⟨5, 0, [], 1002, 1, 0, 0, 0, []⟩ 100] =
      waitForData 5 1000 100 [.frame ⟨5, 0, [], 1002, 1, 0, 0, 0, []⟩ 100] :=
  ⟨(waitForData_match_only 5 1000).1
      [.frame ⟨9, 0, [], 1002, 1, 0, 0, 0, []⟩ 100,
       .frame ⟨5, 0, [], 1002, 1, 0, 0, 0, []⟩ 100] 0
      ⟨5, 0, [], 1002, 1, 0, 0, 0, []⟩ 200 (by decide),
   (waitForData_match_only 5 1000).2.1 0 100 ⟨9, 0, [], 1002, 1, 0, 0, 0, []⟩
      [.frame ⟨5, 0, [], 1002, 1, 0, 0, 0, []⟩ 100] (by decide) (by decide)⟩

/-- Auxiliary deadline bound for `waitForData`: a `timedOutRaise e` exit
satisfies `timeoutMs ≤ e`, and `e` is the starting clock or lies under
`timeoutMs + 500` when every receive attempt takes at most 500 ms. -/
theorem waitForData_timedOutRaise_bounds (reqId timeoutMs : Nat) :
    ∀ (events : List RecvEvent) (now e : Nat),
      (∀ ev ∈ events, ev.dur ≤ 500) →
      waitForData reqId timeoutMs now events = .timedOutRaise e →
      timeoutMs ≤ e ∧ (e = now ∨ e < timeoutMs + 500) := by
  intro events
  induction events with
  | nil =>
    intro now e _ h
    simp only [waitForData] at h
    split at h
    · exact WaitResult.noConfusion h
    · cases h
      exact ⟨by omega, Or.inl rfl⟩
  | cons ev rest ih =>
    intro now e hdur h
    have hd : ev.dur ≤ 500 := hdur ev (List.mem_cons_self ev rest)
    have hrest : ∀ x ∈ rest, x.dur ≤ 500 :=
      fun x hx => hdur x (List.mem_cons_of_mem ev hx)
    by_cases hnow : now < timeoutMs
    · cases ev with
      | frame g d =>
        simp only [waitForData, if_pos hnow] at h
        by_cases hg : g.msgId = reqId
        · rw [if_pos hg] at h
          exact WaitResult.noConfusion h
        · rw [if_neg hg] at h
          have := ih (now + d) e hrest h
          simp only [RecvEvent.dur] at hd
          omega
      | sockTimeout d =>
        simp only [waitForData, if_pos hnow] at h
        have := ih (now + d) e hrest h
        simp only [RecvEvent.dur] at hd
        omega
    · cases ev <;> simp only [waitForData, if_neg hnow] at h <;>
        (cases h; exact ⟨by omega, Or.inl rfl⟩)

/-- Auxiliary progress fact for `waitForData`: when no frame in the stream
matches and the attempts together cover the deadline, the loop exits through
the `timedOutRaise` branch (it neither starves nor loops forever). -/
theorem waitForData_raises_of_no_match (reqId timeoutMs : Nat) :
    ∀ (events : List RecvEvent) (now : Nat),
      (∀ f d, RecvEvent.frame f d ∈ events → f.msgId ≠ reqId) →
      timeoutMs ≤ now + (events.map RecvEvent.dur).sum →
      ∃ e, waitForData reqId timeoutMs now events = .timedOutRaise e := by
  intro events
  induction events with
  | nil =>
    intro now _ htot
    simp only [List.map_nil, List.sum_nil, Nat.add_zero] at htot
    refine ⟨now, ?_⟩
    simp only [waitForData, if_neg (by omega : ¬now < timeoutMs)]
  | cons ev rest ih =>
    intro now hnm htot
    by_cases hnow : now < timeoutMs
    · match ev with
      | .frame g d =>
        have hg : g.msgId ≠ reqId := hnm g d (List.mem_cons_self _ _)
        have ⟨e, he⟩ := ih (now + d)
          (fun f d' hf => hnm f d' (List.mem_cons_of_mem _ hf))
          (by simp only [List.map_cons, List.sum_cons, RecvEvent.dur] at htot ⊢; omega)
        exact ⟨e, by simp only [waitForData, if_pos hnow, if_neg hg]; exact he⟩
      | .sockTimeout d =>
        have ⟨e, he⟩ := ih (now + d)
          (fun f d' hf => hnm f d' (List.mem_cons_of_mem _ hf))
          (by simp only [List.map_cons, List.sum_cons, RecvEvent.dur] at htot ⊢; omega)
        exact ⟨e, by simp only [waitForData, if_pos hnow]; exact he⟩
    · exact ⟨now, by cases ev <;> simp only [waitForData, if_neg hnow]⟩

/-- C9. Timeout behaviour of `_waitForData`: (1) when every receive attempt
takes at most the 0.5-second socket-timeout slice, a run from `start` that
exits by raising (the spec's `ResponseTimeout`) does so no earlier than the
configured deadline and strictly before `responseTimeout + 0.5 s`; (2) if no
matching frame arrives and the attempts cover the deadline, the loop does
raise rather than wait indefinitely; (3) a transient `socket.timeout` on one
attempt before the deadline does not abort the exchange — the loop simply
continues on the remaining traffic. -/
theorem waitForData_deadline (reqId timeoutMs : Nat) :
    (∀ (events : List RecvEvent) (e : Nat),
        (∀ ev ∈ events, ev.dur ≤ 500) →
        waitForData reqId timeoutMs 0 events = .timedOutRaise e →
        timeoutMs ≤ e ∧ e < timeoutMs + 500) ∧
    (∀ events : List RecvEvent,
        (∀ f d, RecvEvent.frame f d ∈ events → f.msgId ≠ reqId) →
        timeoutMs ≤ (events.map RecvEvent.dur).sum →
        ∃ e, waitForData reqId timeoutMs 0 events = .timedOutRaise e) ∧
    (∀ now d rest, now < timeoutMs →
        waitForData reqId timeoutMs now (.sockTimeout d :: rest) =
          waitForData reqId timeoutMs (now + d) rest) := by
  refine ⟨?_, ?_, ?_⟩
  · intro events e hdur h
    have := waitForData_timedOutRaise_bounds reqId timeoutMs events 0 e hdur h
    omega
  · intro events hnm htot
    exact waitForData_raises_of_no_match reqId timeoutMs events 0 hnm
      (by omega)
  · intro now d rest hnow
    simp only [waitForData, if_pos hnow]

/-- Witness for `waitForData_deadline`: with a 1000 ms deadline and three
500 ms empty receive slices, the loop raises at 1000 ms — within
`[timeout, timeout + 500)` — and the first slice merely advances the clock. -/
theorem waitForData_deadline_witness :
    ((1000 : Nat) ≤ 1000 ∧ (1000 : Nat) < 1000 + 500) ∧
    (∃ e, waitForData 5 1000 0 [.sockTimeout 500, .sockTimeout 500, .sockTimeout 500] =
      .timedOutRaise e) ∧
    waitForData 5 1000 0 [.sockTimeout 500, .sockTimeout 500, .sockTimeout 500] =
      waitForData 5 1000 500 [.sockTimeout 500, .sockTimeout 500] :=
  ⟨(waitForData_deadline 5 1000).1
      [.sockTimeout 500, .sockTimeout 500, .sockTimeout 500] 1000
      (by decide) (by decide),
   (waitForData_deadline 5 1000).2.1
      [.sockTimeout 500, .sockTimeout 500, .sockTimeout 500]
      (by intro f d hf; simp at hf) (by decide),
   (waitForData_deadline 5 1000).2.2 0 500 [.sockTimeout 500, .sockTimeout 500]
      (by decide)⟩

end OmniLogic

namespace OmniLogic

/-- The accumulation loop `retval += data[8:]` of `_receiveFile`, written as a
fold, equals the concatenation of the stripped payloads. -/
theorem foldl_append_drop (blocks : List DecodedFrame) :
    ∀ acc : List Nat,
      blocks.foldl (fun acc b => acc ++ b.rdata.drop 8) acc =
        acc ++ (blocks.map (fun b => b.rdata.drop 8)).flatten := by
  induction blocks with
  | nil => intro acc; simp
  | cons b bs ih => intro acc; simp [ih, List.append_assoc]

/-- C5. Reassembly: when the first frame is a lead message whose (null-
stripped) XML payload announces `MsgBlockCount = N` and at least `N` further
frames arrive, `_receiveFile` consumes exactly the next `N` frames (frames
beyond them do not affect the outcome), and the accumulated buffer is the
concatenation, in arrival order, of those `N` frames' payloads with their
first 8 bytes removed — returned as-is when the lead frame is not compressed,
and as the input of `zlib.decompress` when it is. -/
theorem receiveFile_lead_reassembly (parseBlockCount : List Nat → Nat)
    (decompress : List Nat → Option (List Nat)) (ackBody : List Nat)
    (lead : DecodedFrame) (rest : List DecodedFrame) (N : Nat)
    (hty : lead.msgType = MSP_LEADMESSAGE_MESSAGE_TYPE)
    (hN : parseBlockCount lead.rdata.dropLast = N)
    (hlen : N ≤ rest.length) :
    (lead.compressed ≠ 1 →
      receiveFile parseBlockCount decompress ackBody (lead :: rest) =
        some (((rest.take N).map (fun b => b.rdata.drop 8)).flatten,
          sendAck ackBody lead.msgId ::
            (rest.take N).map (fun b => sendAck ackBody b.msgId))) ∧
    (lead.compressed = 1 →
      receiveFile parseBlockCount decompress ackBody (lead :: rest) =
        (decompress (((rest.take N).map (fun b => b.rdata.drop 8)).flatten)).map
          (fun d => (d, sendAck ackBody lead.msgId ::
            (rest.take N).map (fun b => sendAck ackBody b.msgId)))) ∧
    receiveFile parseBlockCount decompress ackBody (lead :: rest) =
      receiveFile parseBlockCount decompress ackBody (lead :: rest.take N) := by
  have hne : lead.msgType ≠ MSP_TELEMETRYUPDATE_MESSAGE_TYPE := by
    rw [hty]; decide
  refine ⟨?_, ?_, ?_⟩
  · intro hcomp
    have hmc : ¬(lead.compressed = 1 ∨ lead.msgType = MSP_TELEMETRYUPDATE_MESSAGE_TYPE) := by
      rintro (h | h)
      · exact hcomp h
      · exact hne h
    simp only [receiveFile, if_pos hty, hN, if_pos hlen, if_neg hmc,
      foldl_append_drop, List.nil_append]
  · intro hcomp
    have hmc : lead.compressed = 1 ∨ lead.msgType = MSP_TELEMETRYUPDATE_MESSAGE_TYPE :=
      Or.inl hcomp
    simp only [receiveFile, if_pos hty, hN, if_pos hlen, if_pos hmc,
      foldl_append_drop, List.nil_append]
  · have hlen2 : N ≤ (rest.take N).length := by
      rw [List.length_take]; omega
    have htake : (rest.take N).take N = rest.take N := by
      rw [List.take_take, Nat.min_self]
    simp only [receiveFile, if_pos hty, hN, if_pos hlen, if_pos hlen2, htake]

/-- Witness for `receiveFile_lead_reassembly`: a lead frame announcing two
blocks followed by two block frames of 9 and 10 payload bytes reassembles
into the two stripped tails, in order. -/
theorem receiveFile_lead_reassembly_witness :
    receiveFile (fun _ => 2) (fun _ => none) [65]
        [⟨10, 0, [], 1998, 0, 0, 0, 0, [60, 0]⟩,
         ⟨11, 0, [], 1999, 0, 0, 0, 0, [0, 0, 0, 0, 0, 0, 0, 0, 7]⟩,
         ⟨12, 0, [], 1999, 0, 0, 0, 0, [0, 0, 0, 0, 0, 0, 0, 0, 8, 9]⟩] =
      some ([7, 8, 9],
        [sendAck [65] 10, sendAck [65] 11, sendAck [65] 12]) :=
  (receiveFile_lead_reassembly (fun _ => 2) (fun _ => none) [65]
      ⟨10, 0, [], 1998, 0, 0, 0, 0, [60, 0]⟩
      [⟨11, 0, [], 1999, 0, 0, 0, 0, [0, 0, 0, 0, 0, 0, 0, 0, 7]⟩,
       ⟨12, 0, [], 1999, 0, 0, 0, 0, [0, 0, 0, 0, 0, 0, 0, 0, 8, 9]⟩] 2
      rfl rfl (by decide)).1 (by decide)

/-- C4. Every inbound frame accepted by `_receiveFile` — the response frame
and each collected block frame — is acknowledged exactly once, in order, and
each ack echoes that inbound frame's own message id (the caller's original
request id never reaches `_receiveFile`), with message type
`XMLACK_MESSAGE_TYPE`, client type 0, and the serialized Ack XML request as
payload.  The ack list is pinned exactly: when the response frame is a lead
message the accepted frames are it plus precisely the announced
`parseBlockCount` many block frames, so the acks are the one-per-frame map
over exactly those frames; otherwise the sole accepted frame is the response
frame and its ack is the only one sent. -/
theorem receiveFile_ack_per_frame (parseBlockCount : List Nat → Nat)
    (decompress : List Nat → Option (List Nat)) (ackBody : List Nat)
    (f : DecodedFrame) (rest : List DecodedFrame) (bs : List Nat)
    (acks : List OmniLogicRequest)
    (h : receiveFile parseBlockCount decompress ackBody (f :: rest) = some (bs, acks)) :
    (f.msgType = MSP_LEADMESSAGE_MESSAGE_TYPE →
      parseBlockCount f.rdata.dropLast ≤ rest.length ∧
        acks = (f :: rest.take (parseBlockCount f.rdata.dropLast)).map (fun g =>
          { msgId := g.msgId, msgType := XMLACK_MESSAGE_TYPE,
            clientType := 0, extraData := ackBody })) ∧
    (f.msgType ≠ MSP_LEADMESSAGE_MESSAGE_TYPE →
      acks = [{ msgId := f.msgId, msgType := XMLACK_MESSAGE_TYPE,
                clientType := 0, extraData := ackBody }]) := by
  simp only [receiveFile] at h
  by_cases hty : f.msgType = MSP_LEADMESSAGE_MESSAGE_TYPE
  · rw [if_pos hty] at h
    refine ⟨fun _ => ?_, fun hn => absurd hty hn⟩
    by_cases hlen : parseBlockCount f.rdata.dropLast ≤ rest.length
    · rw [if_pos hlen] at h
      refine ⟨hlen, ?_⟩
      by_cases hmc : f.compressed = 1 ∨ f.msgType = MSP_TELEMETRYUPDATE_MESSAGE_TYPE
      · rw [if_pos hmc, Option.map_eq_some'] at h
        obtain ⟨d, _, hval⟩ := h
        cases hval
        simp [sendAck]
      · rw [if_neg hmc] at h
        cases h
        simp [sendAck]
    · rw [if_neg hlen] at h
      exact Option.noConfusion h
  · rw [if_neg hty] at h
    refine ⟨fun ht => absurd ht hty, fun _ => ?_⟩
    by_cases hmc : f.compressed = 1 ∨ f.msgType = MSP_TELEMETRYUPDATE_MESSAGE_TYPE
    · rw [if_pos hmc, Option.map_eq_some'] at h
      obtain ⟨d, _, hval⟩ := h
      cases hval
      simp [sendAck]
    · rw [if_neg hmc] at h
      cases h
      simp [sendAck]

/-- Witness for `receiveFile_ack_per_frame`: a lead frame (id 10) announcing
one block (id 11) produces exactly the two acks echoing ids 10 and 11 — the
announced count pins the ack list — and a separate non-lead response frame
(id 20) produces exactly its single ack. -/
theorem receiveFile_ack_per_frame_witness :
    ((1 : Nat) ≤ 1 ∧
      [sendAck [65] 10, sendAck [65] 11] =
        ((⟨10, 0, [], 1998, 0, 0, 0, 0, [60, 0]⟩ ::
            ([⟨11, 0, [], 1999, 0, 0, 0, 0, [0, 0, 0, 0, 0, 0, 0, 0, 9, 10]⟩] :
              List DecodedFrame).take 1).map (fun g =>
          ({ msgId := g.msgId, msgType := XMLACK_MESSAGE_TYPE,
             clientType := 0, extraData := [65] } : OmniLogicRequest)))) ∧
    [sendAck [66] 20] =
      [({ msgId := 20, msgType := XMLACK_MESSAGE_TYPE,
          clientType := 0, extraData := [66] } : OmniLogicRequest)] :=
  ⟨(receiveFile_ack_per_frame (fun _ => 1) (fun _ => none) [65]
      ⟨10, 0, [], 1998, 0, 0, 0, 0, [60, 0]⟩
      [⟨11, 0, [], 1999, 0, 0, 0, 0, [0, 0, 0, 0, 0, 0, 0, 0, 9, 10]⟩]
      [9, 10] [sendAck [65] 10, sendAck [65] 11] (by decide)).1 rfl,
   (receiveFile_ack_per_frame (fun _ => 0) (fun _ => none) [66]
      ⟨20, 0, [], 2, 0, 0, 0, 0, [0, 0, 0, 0, 0, 0, 0, 0, 7]⟩ []
      [7] [sendAck [66] 20] (by decide)).2 (by decide)⟩

end OmniLogic

namespace OmniLogic

/-- C8. The response buffer is decompressed if and only if the received
frame's `compressed` byte equals 1 or its message type is in the
always-compressed allow-list `[MSP_TELEMETRYUPDATE_MESSAGE_TYPE]`:
(1) in the compressed non-lead case the result is `zlib.decompress` applied
to the frame payload; (2) in the compressed lead case it is
`zlib.decompress` applied to the assembled block buffer; (3) when the
condition does not hold the decompression function is never consulted (the
result is the same for every `decompress`); (4) malformed compressed data
(`zlib.decompress` failing, the spec's `DecompressionError`) makes the
exchange fail. -/
theorem receiveFile_compression_iff (parseBlockCount : List Nat → Nat)
    (decompress : List Nat → Option (List Nat)) (ackBody : List Nat)
    (f : DecodedFrame) (rest : List DecodedFrame) :
    ((f.compressed = 1 ∨ f.msgType = MSP_TELEMETRYUPDATE_MESSAGE_TYPE) →
      f.msgType ≠ MSP_LEADMESSAGE_MESSAGE_TYPE →
      receiveFile parseBlockCount decompress ackBody (f :: rest) =
        (decompress f.rdata).map (fun d => (d, [sendAck ackBody f.msgId]))) ∧
    ((f.compressed = 1 ∨ f.msgType = MSP_TELEMETRYUPDATE_MESSAGE_TYPE) →
      f.msgType = MSP_LEADMESSAGE_MESSAGE_TYPE →
      parseBlockCount f.rdata.dropLast ≤ rest.length →
      receiveFile parseBlockCount decompress ackBody (f :: rest) =
        (decompress ((rest.take (parseBlockCount f.rdata.dropLast)).foldl
            (fun acc b => acc ++ b.rdata.drop 8) [])).map
          (fun d => (d, sendAck ackBody f.msgId ::
            (rest.take (parseBlockCount f.rdata.dropLast)).map
              (fun b => sendAck ackBody b.msgId)))) ∧
    (¬(f.compressed = 1 ∨ f.msgType = MSP_TELEMETRYUPDATE_MESSAGE_TYPE) →
      ∀ decompress2 : List Nat → Option (List Nat),
        receiveFile parseBlockCount decompress ackBody (f :: rest) =
          receiveFile parseBlockCount decompress2 ackBody (f :: rest)) ∧
    ((f.compressed = 1 ∨ f.msgType = MSP_TELEMETRYUPDATE_MESSAGE_TYPE) →
      f.msgType ≠ MSP_LEADMESSAGE_MESSAGE_TYPE →
      decompress f.rdata = none →
      receiveFile parseBlockCount decompress ackBody (f :: rest) = none) := by
  refine ⟨?_, ?_, ?_, ?_⟩
  · intro hmc hty
    simp only [receiveFile, if_neg hty, if_pos hmc]
  · intro hmc hty hlen
    simp only [receiveFile, if_pos hty, if_pos hlen, if_pos hmc]
  · intro hmc decompress2
    by_cases hty : f.msgType = MSP_LEADMESSAGE_MESSAGE_TYPE
    · simp only [receiveFile, if_pos hty, if_neg hmc]
    · simp only [receiveFile, if_neg hty, if_neg hmc]
  · intro hmc hty hnone
    simp only [receiveFile, if_neg hty, if_pos hmc, hnone, Option.map_none']

/-- Witness for `receiveFile_compression_iff`: a telemetry-update frame
(type 1004, flag 0) is decompressed although its flag is clear, and a failing
decompression aborts the exchange. -/
theorem receiveFile_compression_iff_witness :
    receiveFile (fun _ => 0) (fun l => some (l ++ [0])) []
        [⟨20, 0, [], 1004, 0, 0, 0, 0, [1, 2, 3]⟩] =
      some ([1, 2, 3, 0], [sendAck [] 20]) ∧
    receiveFile (fun _ => 0) (fun _ => none) []
        [⟨20, 0, [], 1004, 0, 0, 0, 0, [1, 2, 3]⟩] = none :=
  ⟨(receiveFile_compression_iff (fun _ => 0) (fun l => some (l ++ [0])) []
      ⟨20, 0, [], 1004, 0, 0, 0, 0, [1, 2, 3]⟩ []).1 (by decide) (by decide),
   (receiveFile_compression_iff (fun _ => 0) (fun _ => none) []
      ⟨20, 0, [], 1004, 0, 0, 0, 0, [1, 2, 3]⟩ []).2.2.2 (by decide) (by decide) rfl⟩

/-- Taking then mapping the stripped payloads depends only on the payloads:
two block lists with equal payload lists produce equal stripped prefixes. -/
theorem map_drop_take_congr :
    ∀ (n : Nat) (xs ys : List DecodedFrame),
      xs.map DecodedFrame.rdata = ys.map DecodedFrame.rdata →
      (xs.take n).map (fun b => b.rdata.drop 8) =
        (ys.take n).map (fun b => b.rdata.drop 8) := by
  intro n
  induction n with
  | zero => intro xs ys _; simp
  | succ n ih =>
    intro xs ys h
    cases xs with
    | nil =>
      cases ys with
      | nil => rfl
      | cons y ys => exact absurd h (by simp)
    | cons x xs =>
      cases ys with
      | nil => exact absurd h (by simp)
      | cons y ys =>
        simp only [List.map_cons, List.cons.injEq] at h
        simp only [List.take_succ_cons, List.map_cons, h.1, ih xs ys h.2]

/-- C10. During block collection after a lead frame, every received frame is
counted as the next block and contributes `payload[8:]` to the buffer
regardless of its message type, message id, or any other header field: the
response bytes are unchanged under any alteration of the block frames that
preserves their payloads (no block-message or id check exists). -/
theorem receiveFile_blocks_unchecked (parseBlockCount : List Nat → Nat)
    (decompress : List Nat → Option (List Nat)) (ackBody : List Nat)
    (lead : DecodedFrame) (rest rest2 : List DecodedFrame)
    (hty : lead.msgType = MSP_LEADMESSAGE_MESSAGE_TYPE)
    (hdata : rest.map DecodedFrame.rdata = rest2.map DecodedFrame.rdata) :
    Option.map Prod.fst (receiveFile parseBlockCount decompress ackBody (lead :: rest)) =
      Option.map Prod.fst (receiveFile parseBlockCount decompress ackBody (lead :: rest2)) := by
  have hlen : rest.length = rest2.length := by
    have := congrArg List.length hdata
    simpa using this
  have hbuf : (rest.take (parseBlockCount lead.rdata.dropLast)).foldl
        (fun acc b => acc ++ b.rdata.drop 8) [] =
      (rest2.take (parseBlockCount lead.rdata.dropLast)).foldl
        (fun acc b => acc ++ b.rdata.drop 8) [] := by
    rw [foldl_append_drop, foldl_append_drop,
      map_drop_take_congr (parseBlockCount lead.rdata.dropLast) rest rest2 hdata]
  simp only [receiveFile, if_pos hty]
  by_cases hle : parseBlockCount lead.rdata.dropLast ≤ rest.length
  · have hle2 : parseBlockCount lead.rdata.dropLast ≤ rest2.length := by omega
    rw [if_pos hle, if_pos hle2, hbuf]
    by_cases hmc : lead.compressed = 1 ∨ lead.msgType = MSP_TELEMETRYUPDATE_MESSAGE_TYPE
    · rw [if_pos hmc, if_pos hmc, Option.map_map, Option.map_map]
      rfl
    · rw [if_neg hmc, if_neg hmc]
      rfl
  · have hle2 : ¬parseBlockCount lead.rdata.dropLast ≤ rest2.length := by omega
    rw [if_neg hle, if_neg hle2]

/-- Witness for `receiveFile_blocks_unchecked`: changing the single block
frame's id from 11 to 999 and its type from 1999 to 5 leaves the response
bytes unchanged. -/
theorem receiveFile_blocks_unchecked_witness :
    Option.map Prod.fst (receiveFile (fun _ => 1) (fun _ => none) [65]
        [⟨10, 0, [], 1998, 0, 0, 0, 0, [60, 0]⟩,
         ⟨11, 0, [], 1999, 0, 0, 0, 0, [0, 0, 0, 0, 0, 0, 0, 0, 42]⟩]) =
      Option.map Prod.fst (receiveFile (fun _ => 1) (fun _ => none) [65]
        [⟨10, 0, [], 1998, 0, 0, 0, 0, [60, 0]⟩,
         ⟨999, 0, [], 5, 1, 7, 0, 7, [0, 0, 0, 0, 0, 0, 0, 0, 42]⟩]) :=
  receiveFile_blocks_unchecked (fun _ => 1) (fun _ => none) [65]
    ⟨10, 0, [], 1998, 0, 0, 0, 0, [60, 0]⟩
    [⟨11, 0, [], 1999, 0, 0, 0, 0, [0, 0, 0, 0, 0, 0, 0, 0, 42]⟩]
    [⟨999, 0, [], 5, 1, 7, 0, 7, [0, 0, 0, 0, 0, 0, 0, 0, 42]⟩]
    rfl rfl

end OmniLogic

namespace OmniLogic

/-- C2 counterexample: an exchange with request id 5 in which the controller's
ack frame (id 5) satisfies `_waitForData`, after which a frame with id 99 —
different from the request id — arrives and is processed into the response
handed to the caller: the returned bytes are the id-99 frame's payload with
its 8-byte sub-header stripped, and the session even acknowledges id 99.  The
claim that the frame processed into the response always carries the
originating request's id, and that a frame with a different id is never
treated as the response, is therefore false of the code: `_receiveFile`
performs no message-id comparison at all. -/
theorem callExchange_foreign_id_processed :
    callExchange (fun _ => 0) (fun _ => none) [] 5
        [⟨5, 0, [], 1002, 1, 0, 0, 0, []⟩,
         ⟨99, 0, [], 2, 0, 0, 0, 0, [0, 1, 2, 3, 4, 5, 6, 7, 8, 9]⟩] =
      some ([8, 9], [sendAck [] 99]) ∧ (99 : Nat) ≠ 5 := by
  constructor
  · rfl
  · decide

/-- C2 (amended). What the code actually guarantees about id matching:
(1) the ack-wait performed inside `_sendRequest` accepts only a frame whose
id equals the request id (any earlier frame it consumed had a different id);
(2) the subsequent `_receiveFile` accepts the next arriving frame as the
response without comparing its message id (or any field other than payload,
message type and compressed flag) to anything: the response bytes are
invariant under changing that frame's id. -/
theorem callExchange_matching_scope (reqId : Nat) :
    (∀ (frames : List DecodedFrame) (f : DecodedFrame) (rest : List DecodedFrame),
        waitFrames reqId frames = some (f, rest) → f.msgId = reqId) ∧
    (∀ (parseBlockCount : List Nat → Nat) (decompress : List Nat → Option (List Nat))
        (ackBody : List Nat) (f f2 : DecodedFrame) (rest : List DecodedFrame),
        f.rdata = f2.rdata → f.msgType = f2.msgType → f.compressed = f2.compressed →
        Option.map Prod.fst (receiveFile parseBlockCount decompress ackBody (f :: rest)) =
          Option.map Prod.fst (receiveFile parseBlockCount decompress ackBody (f2 :: rest))) := by
  constructor
  · intro frames
    induction frames with
    | nil => intro f rest h; exact Option.noConfusion h
    | cons g gs ih =>
      intro f rest h
      by_cases hg : g.msgId = reqId
      · simp only [waitFrames, if_pos hg] at h
        cases h
        exact hg
      · simp only [waitFrames, if_neg hg] at h
        exact ih f rest h
  · intro parseBlockCount decompress ackBody f f2 rest h1 h2 h3
    simp only [receiveFile, h1, h2, h3]
    by_cases hty : f2.msgType = MSP_LEADMESSAGE_MESSAGE_TYPE
    · rw [if_pos hty, if_pos hty]
      by_cases hle : parseBlockCount f2.rdata.dropLast ≤ rest.length
      · rw [if_pos hle, if_pos hle]
        by_cases hmc : f2.compressed = 1 ∨ f2.msgType = MSP_TELEMETRYUPDATE_MESSAGE_TYPE
        · rw [if_pos hmc, if_pos hmc, Option.map_map, Option.map_map]
          rfl
        · rw [if_neg hmc, if_neg hmc]
          rfl
      · rw [if_neg hle, if_neg hle]
    · rw [if_neg hty, if_neg hty]
      by_cases hmc : f2.compressed = 1 ∨ f2.msgType = MSP_TELEMETRYUPDATE_MESSAGE_TYPE
      · rw [if_pos hmc, if_pos hmc, Option.map_map, Option.map_map]
        rfl
      · rw [if_neg hmc, if_neg hmc]
        rfl

/-- Witness for `callExchange_matching_scope`: the ack wait on id 7 skips a
stray id-9 frame and matches the id-7 frame, and two response frames equal in
everything but their message ids (1 versus 2) yield the same response
bytes. -/
theorem callExchange_matching_scope_witness :
    DecodedFrame.msgId ⟨7, 0, [], 1002, 1, 0, 0, 0, []⟩ = 7 ∧
    Option.map Prod.fst (receiveFile (fun _ => 0) (fun _ => none) []
        [⟨1, 0, [], 2, 0, 0, 0, 0, [0, 0, 0, 0, 0, 0, 0, 0, 65]⟩]) =
      Option.map Prod.fst (receiveFile (fun _ => 0) (fun _ => none) []
        [⟨2, 0, [], 2, 0, 0, 0, 0, [0, 0, 0, 0, 0, 0, 0, 0, 65]⟩]) :=
  ⟨(callExchange_matching_scope 7).1
      [⟨9, 0, [], 1002, 1, 0, 0, 0, []⟩, ⟨7, 0, [], 1002, 1, 0, 0, 0, []⟩]
      ⟨7, 0, [], 1002, 1, 0, 0, 0, []⟩ [] (by decide),
   (callExchange_matching_scope 7).2 (fun _ => 0) (fun _ => none) []
      ⟨1, 0, [], 2, 0, 0, 0, 0, [0, 0, 0, 0, 0, 0, 0, 0, 65]⟩
      ⟨2, 0, [], 2, 0, 0, 0, 0, [0, 0, 0, 0, 0, 0, 0, 0, 65]⟩ [] rfl rfl rfl⟩

end OmniLogic

namespace OmniLogic

/-- Witness for `fromBytes_short_iff`: a 23-byte input is rejected, and a
27-byte input decodes with the bytes after position 24 as its payload. -/
theorem fromBytes_short_iff_witness :
    OmniLogicRequest.fromBytes (List.replicate 23 0) = none ∧
      ([1, 2, 3] : List Nat) = (List.replicate 24 0 ++ [1, 2, 3]).drop 24 :=
  ⟨(fromBytes_short_iff (List.replicate 23 0)).1.mpr (by decide),
   (fromBytes_short_iff (List.replicate 24 0 ++ [1, 2, 3])).2
      ⟨0, 0, [0, 0, 0, 0], 0, 0, 0, 0, 0, [1, 2, 3]⟩ (by decide)⟩

end OmniLogic
